import Mathlib

/-!
# Credibility votes: a verification development

A shallow embedding of the Go service (`main.go`, `util/util.go`) that records one
positive or negative credibility vote per (voter, target) pair.

Conventions of the embedding.

* A Go `string` is a Lean `String`, one character per byte.  Every test the program
  makes on a byte (`';'`, the digits, the sign characters, the base64 alphabet) is a
  test on an ASCII character.
* A Go `[]string` is a `List String`; the nil slice and the empty slice are both `[]`.
* A Go `error` is an `Option GoError`, `none` being `nil`.
* The store handle `*sql.DB` is a value of type `DB` passed in and out of every
  function that talks to the store.
* Go's standard library (`strings.Split`, `strings.Join`, `strconv.Atoi`,
  `base64.StdEncoding.DecodeString`) is embedded from its own source.
-/

namespace Credibility

/-! ## Standard library: `strings` -/

/-- Fields of a byte sequence between occurrences of the one-byte separator `sep`:
the list-level content of `strings.Split(s, string(sep))`. -/
def splitChars (sep : Char) : List Char → List (List Char)
  | [] => [[]]
  | c :: cs =>
    if c = sep then [] :: splitChars sep cs
    else
      match splitChars sep cs with
      | [] => [[c]]
      | f :: fs => (c :: f) :: fs

/-- The elements of `elems` with `sep` between consecutive ones: the list-level
content of `strings.Join(elems, string(sep))`. -/
def joinChars (sep : Char) : List (List Char) → List Char
  | [] => []
  | [a] => a
  | a :: b :: rest => a ++ sep :: joinChars sep (b :: rest)

/-- Go `strings.Split(s, sep)` for a one-byte separator. -/
def stringsSplit (s : String) (sep : Char) : List String :=
  (splitChars sep s.data).map String.mk

/-- Go `strings.Join(elems, sep)` for a one-byte separator. -/
def stringsJoin (elems : List String) (sep : Char) : String :=
  String.mk (joinChars sep (elems.map String.data))

/-! ## Standard library: `strconv.Atoi` -/

/-- Go `strconv.IntSize` (the width of `int`) on a 64-bit platform. -/
def intSize : Nat := 64

/-- The two failure kinds of `strconv`: `ErrSyntax` and `ErrRange`. -/
inductive NumError where
  | ErrSyntax
  | ErrRange
  deriving DecidableEq

/-- The byte is one of `'0'` .. `'9'`. -/
def isDigit (c : Char) : Bool := decide (48 ≤ c.toNat ∧ c.toNat ≤ 57)

/-- The fast-path loop of `strconv.Atoi`: `ch -= '0'; if ch > 9 { syntax error };
n = n*10 + int(ch)`.  The byte subtraction wraps, so `ch > 9` holds exactly for a
byte outside `'0'` .. `'9'`.  The loop only runs on fewer than 19 bytes, where `n`
stays below `10^18` and the `int` arithmetic does not overflow. -/
def atoiFastLoop : List Char → Nat → Except NumError Nat
  | [], n => .ok n
  | c :: cs, n =>
    if isDigit c then atoiFastLoop cs (n * 10 + (c.toNat - 48))
    else .error .ErrSyntax

/-- The digit loop of `strconv.ParseUint(s, 10, bitSize)` on `uint64` arithmetic:
`cutoff = maxUint64/10 + 1`, `maxVal = 1<<bitSize - 1`.  A letter has a digit value of
at least 10, which is no digit in base 10, so every byte outside `'0'` .. `'9'` is a
syntax error. -/
def parseUintLoop (bitSize : Nat) : List Char → Nat → Except NumError Nat
  | [], n => .ok n
  | c :: cs, n =>
    if isDigit c then
      let d := c.toNat - 48
      if n ≥ (2 ^ 64 - 1) / 10 + 1 then .error .ErrRange
      else
        let n10 := (n * 10) % 2 ^ 64
        let n1 := (n10 + d) % 2 ^ 64
        if n1 < n10 ∨ n1 > 2 ^ bitSize - 1 then .error .ErrRange
        else parseUintLoop bitSize cs n1
    else .error .ErrSyntax

/-- Go `strconv.ParseUint(s, 10, bitSize)` with `bitSize` already resolved. -/
def ParseUint (s : List Char) (bitSize : Nat) : Except NumError Nat :=
  if s = [] then .error .ErrSyntax else parseUintLoop bitSize s 0

/-- Go `strconv.ParseInt(s, 10, 0)`: pick off the sign, convert unsigned, check the
range against `cutoff = 1 << (bitSize-1)`. -/
def ParseInt (s : List Char) : Except NumError Int :=
  if s = [] then .error .ErrSyntax
  else
    let neg := s.head? = some '-'
    let body := if s.head? = some '+' ∨ s.head? = some '-' then s.tail else s
    match ParseUint body intSize with
    | .error .ErrSyntax => .error .ErrSyntax
    | .error .ErrRange => .error .ErrRange
    | .ok un =>
      let cutoff := 2 ^ (intSize - 1)
      if ¬ neg ∧ un ≥ cutoff then .error .ErrRange
      else if neg ∧ un > cutoff then .error .ErrRange
      else .ok (if neg then - (un : Int) else (un : Int))

/-- Go `strconv.Atoi(s)`: a fast path for short inputs (fewer than 19 bytes when `int`
has 64 bits), `ParseInt(s, 10, 0)` otherwise. -/
def Atoi (s : String) : Except NumError Int :=
  let cs := s.data
  if 0 < cs.length ∧ cs.length < 19 then
    let neg := cs.head? = some '-'
    let signed := cs.head? = some '-' ∨ cs.head? = some '+'
    let body := if signed then cs.tail else cs
    if signed ∧ body.length < 1 then .error .ErrSyntax
    else
      match atoiFastLoop body 0 with
      | .error e => .error e
      | .ok n => .ok (if neg then - (n : Int) else (n : Int))
  else ParseInt cs

/-! ## Standard library: `base64.StdEncoding.DecodeString` -/

/-- The decode map of the standard alphabet `A-Z a-z 0-9 + /`; `none` is the entry
`0xff` of a byte outside the alphabet. -/
def decodeMap (c : Char) : Option Nat :=
  if 65 ≤ c.toNat ∧ c.toNat ≤ 90 then some (c.toNat - 65)
  else if 97 ≤ c.toNat ∧ c.toNat ≤ 122 then some (c.toNat - 97 + 26)
  else if 48 ≤ c.toNat ∧ c.toNat ≤ 57 then some (c.toNat - 48 + 52)
  else if c = '+' then some 62
  else if c = '/' then some 63
  else none

/-- Decoding of the quanta of a padded, non-strict base64 text from which the
ignored bytes `'\r'` and `'\n'` have been dropped: four alphabet bytes give three
bytes; a final quantum `xx==` gives one byte and `xxx=` two; anything else is a
`CorruptInputError` (`none`). -/
def decodeQuanta : List Char → Option (List Nat)
  | [] => some []
  | a :: b :: c :: d :: rest =>
    match decodeMap a, decodeMap b with
    | some x, some y =>
      match decodeMap c, decodeMap d with
      | some z, some w =>
        let val := x * 2 ^ 18 + y * 2 ^ 12 + z * 2 ^ 6 + w
        match decodeQuanta rest with
        | some out => some (val / 2 ^ 16 % 256 :: val / 2 ^ 8 % 256 :: val % 256 :: out)
        | none => none
      | some z, none =>
        if d = '=' ∧ rest = [] then
          let val := x * 2 ^ 18 + y * 2 ^ 12 + z * 2 ^ 6
          some [val / 2 ^ 16 % 256, val / 2 ^ 8 % 256]
        else none
      | none, _ =>
        if c = '=' ∧ d = '=' ∧ rest = [] then
          let val := x * 2 ^ 18 + y * 2 ^ 12
          some [val / 2 ^ 16 % 256]
        else none
    | _, _ => none
  | _ => none

/-- Go `base64.StdEncoding.DecodeString(s)`: the decoded bytes (as a string), or
`none` for a `CorruptInputError`. -/
def base64DecodeString (s : String) : Option String :=
  match decodeQuanta (s.data.filter (fun c => c ≠ '\r' ∧ c ≠ '\n')) with
  | some bytes => some (String.mk (bytes.map Char.ofNat))
  | none => none

/-! ## `util/util.go` -/

/-- The errors of the store and of `rate`. `Driver` stands for any error returned by
the store driver other than `sql.ErrNoRows`. -/
inductive GoError where
  | ErrNoRows
  | Driver
  | AlreadyVotedErr
  | InvalidChoice
  deriving DecidableEq

/-- The method `Error()` of each error value; for `Driver` a stand-in for the message
of the driver, which is some text other than "user already voted". -/
def GoError.Error : GoError → String
  | .ErrNoRows => "sql: no rows in result set"
  | .Driver => "driver error"
  | .AlreadyVotedErr => "user already voted"
  | .InvalidChoice => "Invalid choice"

/-- The errors `DecodeVoteAndUser` returns: the `base64.CorruptInputError` of the
decoder (its byte offset is not tracked), `errors.New("invalid vote header")`,
`errors.New("user_id encoded field must be a number")` and
`errors.New("invalid vote type")`. -/
inductive DecodeError where
  | CorruptInput
  | InvalidVoteHeader
  | UserIDNotNumber
  | InvalidVoteType
  deriving DecidableEq

/-- One `for index, value := range list` loop of `VotedOnUser`: `found` is overwritten
with the index at every element equal to `userID`. -/
def votedLoop (userID : String) : List String → Int → Int → Int
  | [], _, found => found
  | value :: rest, index, found =>
    votedLoop userID rest (index + 1) (if value = userID then index else found)

/-- Go `util.VotedOnUser`: the index of `userID` in each list, `-1` when absent. -/
def VotedOnUser (userID : String) (goodList badList : List String) : Int × Int :=
  (votedLoop userID goodList 0 (-1), votedLoop userID badList 0 (-1))

/-- Go `util.VerifyID`: `strconv.Atoi` returns no error. -/
def VerifyID (idStr : String) : Bool :=
  match Atoi idStr with
  | .ok _ => true
  | .error _ => false

/-- The map `validVotes`, as its list of entries. -/
def validVotes : List (String × Bool) := [("positive", true), ("negative", false)]

/-- Go `util.verifyVote`: the key is present in `validVotes`. -/
def verifyVote (vote : String) : Bool :=
  match validVotes.lookup vote with
  | some _ => true
  | none => false

/-- Go `util.DecodeVoteAndUser`. -/
def DecodeVoteAndUser (encodedStr : String) : String × String × Option DecodeError :=
  match base64DecodeString encodedStr with
  | none => ("", "", some .CorruptInput)
  | some raw =>
    let decodedVote := stringsSplit raw ';'
    if decodedVote.length ≠ 2 then ("", "", some .InvalidVoteHeader)
    else
      let userID := decodedVote.getD 0 ""
      if ¬ VerifyID userID then ("", "", some .UserIDNotNumber)
      else
        let vote := decodedVote.getD 1 ""
        if ¬ verifyVote vote then ("", "", some .InvalidVoteType)
        else (userID, vote, none)

/-! ## The store -/

/-- One row of the table `credibility`. -/
structure Row where
  torn_id : String
  positive : String
  negative : String
  deriving DecidableEq

/-- The store behind a `*sql.DB` handle: the rows of the table `credibility`, and
for the store calls still to come (each `QueryRow(..).Scan` and each `Exec`, in
order) whether the call fails with a driver error; a call beyond the end of
`failures` succeeds.  A failed call writes nothing. -/
structure DB where
  rows : List Row
  failures : List Bool
  deriving DecidableEq

/-- Whether the next store call fails, and the store with that call consumed. -/
def DB.next (db : DB) : Bool × DB :=
  (db.failures.headD false, { rows := db.rows, failures := db.failures.tail })

/-- The statement `SELECT positive, negative FROM credibility WHERE torn_id = $1`
run by `db.QueryRow(..).Scan(&positiveVotes, &negativeVotes)`: the first matching
row, `sql.ErrNoRows` when there is none. -/
def DB.QueryRow (db : DB) (tornID : String) : DB × String × String × Option GoError :=
  let (fails, db1) := db.next
  if fails then (db1, "", "", some .Driver)
  else
    match db1.rows.find? (fun r => r.torn_id = tornID) with
    | none => (db1, "", "", some .ErrNoRows)
    | some r => (db1, r.positive, r.negative, none)

/-- The statement `UPDATE credibility SET <column> = $1 WHERE torn_id = $2` run by
`db.Exec`.  A column other than `positive` and `negative` is not in the table and the
statement is rejected. -/
def DB.ExecUpdate (db : DB) (column value tornID : String) : DB × Option GoError :=
  let (fails, db1) := db.next
  if fails then (db1, some .Driver)
  else if column = "positive" then
    (⟨db1.rows.map (fun r => if r.torn_id = tornID then ⟨r.torn_id, value, r.negative⟩ else r),
      db1.failures⟩, none)
  else if column = "negative" then
    (⟨db1.rows.map (fun r => if r.torn_id = tornID then ⟨r.torn_id, r.positive, value⟩ else r),
      db1.failures⟩, none)
  else (db1, some .Driver)

/-- The statement `INSERT INTO credibility (torn_id,positive,negative) VALUES
($1,$2,$3)` run by `db.Exec`. -/
def DB.ExecInsert (db : DB) (tornID positive negative : String) : DB × Option GoError :=
  let (fails, db1) := db.next
  if fails then (db1, some .Driver)
  else (⟨db1.rows ++ [⟨tornID, positive, negative⟩], db1.failures⟩, none)

/-! ## `main.go` -/

/-- Go `getVoteList`: the positive and negative voters of the target.  Building the
query text (`ToSql`) does not fail for this fixed query. -/
def getVoteList (db : DB) (tornID : String) :
    DB × List String × List String × Option GoError :=
  let (db1, positiveVotes, negativeVotes, parseErr) := db.QueryRow tornID
  if parseErr ≠ none then (db1, [], [], parseErr)
  else
    let good := if positiveVotes.length > 0 then stringsSplit positiveVotes ';' else []
    let bad := if negativeVotes.length > 0 then stringsSplit negativeVotes ';' else []
    (db1, good, bad, none)

/-- Go `updateCredibility`: overwrite the column named by `vote` with the joined
list of voters. -/
def updateCredibility (db : DB) (voters : List String) (targetID vote : String) :
    DB × Option GoError :=
  let votersStr := stringsJoin voters ';'
  db.ExecUpdate vote votersStr targetID

/-- Go `createCredibilityRowForTarget`: insert the row of the target with the vote of
the user. -/
def createCredibilityRowForTarget (db : DB) (userID targetID vote : String) :
    DB × Option GoError :=
  let positive := if vote = "positive" then userID else ""
  let negative := if vote = "positive" then "" else if vote = "negative" then userID else ""
  db.ExecInsert targetID positive negative

/-- Go `rate`: rates the target with the choice of the user. -/
def rate (db : DB) (targetID userID vote : String) : DB × Option GoError :=
  let (db1, goodList, badList, err) := getVoteList db targetID
  if err ≠ none ∧ err ≠ some .ErrNoRows then (db1, err)
  else
    let (db2, createErr) :=
      if err = some .ErrNoRows then createCredibilityRowForTarget db1 userID targetID vote
      else (db1, none)
    if createErr ≠ none then (db2, createErr)
    else
      let (votedPositive, votedNegative) := VotedOnUser targetID goodList badList
      if vote = "positive" then
        if votedPositive ≠ -1 then (db2, some .AlreadyVotedErr)
        else
          let (db3, removeVoteErr) :=
            if votedNegative ≠ -1 then
              updateCredibility db2 (badList.eraseIdx votedNegative.toNat) targetID "negative"
            else (db2, none)
          if removeVoteErr ≠ none then (db3, removeVoteErr)
          else updateCredibility db3 (goodList ++ [userID]) targetID vote
      else if vote = "negative" then
        if votedNegative ≠ -1 then (db2, some .AlreadyVotedErr)
        else
          let (db3, removeVoteErr) :=
            if votedPositive ≠ -1 then
              updateCredibility db2 (goodList.eraseIdx votedPositive.toNat) targetID "positive"
            else (db2, none)
          if removeVoteErr ≠ none then (db3, removeVoteErr)
          else updateCredibility db3 (badList ++ [userID]) targetID vote
      else (db2, some .InvalidChoice)

/-! ### The HTTP handlers -/

/-- Go `textproto.validHeaderFieldByte`: the byte is a token character of RFC 7230: a
digit, a letter or one of the punctuation bytes 33, 35 to 39, 42, 43, 45, 46, 94 to 96,
124 and 126. -/
def validHeaderFieldByte (c : Char) : Bool :=
  decide ((48 ≤ c.toNat ∧ c.toNat ≤ 57) ∨ (65 ≤ c.toNat ∧ c.toNat ≤ 90) ∨
    (97 ≤ c.toNat ∧ c.toNat ≤ 122) ∨
    c.toNat ∈ [33, 35, 36, 37, 38, 39, 42, 43, 45, 46, 94, 95, 96, 124, 126])

/-- The second loop of `textproto.canonicalMIMEHeaderKey`: a letter is put in upper
case at the start and after a `'-'`, in lower case elsewhere. -/
def canonicalLoop : Bool → List Char → List Char
  | _, [] => []
  | upper, c :: cs =>
    let c1 :=
      if upper = true ∧ 97 ≤ c.toNat ∧ c.toNat ≤ 122 then Char.ofNat (c.toNat - 32)
      else if upper = false ∧ 65 ≤ c.toNat ∧ c.toNat ≤ 90 then Char.ofNat (c.toNat + 32)
      else c
    c1 :: canonicalLoop (decide (c1 = '-')) cs

/-- Go `textproto.CanonicalMIMEHeaderKey`: a key holding a byte that is no token
character (a space included) is returned unchanged, any other key is canonicalised. -/
def CanonicalMIMEHeaderKey (s : String) : String :=
  if s.data.all validHeaderFieldByte then String.mk (canonicalLoop true s.data) else s

/-- The header lines of a request, name and value, in the order received.  The
server files each value under the canonical form of its name. -/
structure Request where
  Header : List (String × String)

/-- Go `r.Header.Get(key)`: the first value filed under the canonical form of `key`,
`""` when there is none. -/
def Request.Get (r : Request) (key : String) : String :=
  match r.Header.find?
      (fun kv => decide (CanonicalMIMEHeaderKey kv.1 = CanonicalMIMEHeaderKey key)) with
  | some kv => kv.2
  | none => ""

/-- A JSON value of the response object. -/
inductive JSONValue where
  | num (n : Int)
  | str (s : String)
  deriving DecidableEq

/-- What is written to the response body: text, a format with the decode error
printed by its `%v`, or a JSON object as its fields. -/
inductive Body where
  | text (s : String)
  | errorf (format : String) (err : DecodeError)
  | json (fields : List (String × JSONValue))
  deriving DecidableEq

/-- The `http.ResponseWriter`: the status code sent (`none` until a header is sent)
and the body written so far. -/
structure ResponseWriter where
  status : Option Nat
  body : List Body
  deriving DecidableEq

/-- Go `w.WriteHeader(code)`: the first status code is the one sent, a later call is
superfluous and ignored. -/
def ResponseWriter.WriteHeader (w : ResponseWriter) (code : Nat) : ResponseWriter :=
  match w.status with
  | some _ => w
  | none => ⟨some code, w.body⟩

/-- Go `fmt.Fprintf(w, ..)`: a write before any `WriteHeader` sends status 200. -/
def ResponseWriter.Write (w : ResponseWriter) (b : Body) : ResponseWriter :=
  ⟨some (w.status.getD 200), w.body ++ [b]⟩

/-- What a handler leaves behind: the store, the response, and whether `log.Fatalf`
ended the process before the handler returned. -/
structure Served where
  db : DB
  w : ResponseWriter
  exited : Bool
  deriving DecidableEq

/-- The anonymous response struct of `fetchCredibility`, with its JSON tags
`positives`, `negatives` and `voted,omitempty`. -/
structure CredibilityResponse where
  PositiveVotes : Int
  NegativeVotes : Int
  Voted : String
  deriving DecidableEq

/-- Go `json.Marshal(response)`: the fields of the object; `voted` is left out when it
is the empty string (`omitempty`). -/
def jsonMarshal (response : CredibilityResponse) : List (String × JSONValue) :=
  [("positives", .num response.PositiveVotes), ("negatives", .num response.NegativeVotes)]
    ++ (if response.Voted = "" then [] else [("voted", .str response.Voted)])

/-- The response `fetchCredibility` builds from the fetched lists (lines 117-133):
the two counts and the direction the user voted in. -/
def credibilityResponse (userID : String) (goodList badList : List String) :
    CredibilityResponse :=
  let (posIndex, negIndex) := VotedOnUser userID goodList badList
  let voted := if posIndex > -1 then "Positive" else if negIndex > -1 then "Negative" else ""
  { PositiveVotes := goodList.length, NegativeVotes := badList.length, Voted := voted }

/-- Go `Env.fetchCredibility`.  `sql.Open` only validates the driver name and does
not fail here. -/
def fetchCredibility (db : DB) (r : Request) : Served :=
  let w : ResponseWriter := ⟨none, []⟩
  let targetID := r.Get "target_id"
  let userID := r.Get "user_id"
  if targetID = "" ∨ userID = "" then
    ⟨db, (w.WriteHeader 400).Write (.text "missing required request headers"), false⟩
  else if ¬ VerifyID targetID ∨ ¬ VerifyID userID then
    ⟨db, (w.WriteHeader 400).Write (.text "target_id and user_id fields must be a number"),
      false⟩
  else
    let (db1, goodList, badList, err) := getVoteList db targetID
    if err ≠ none ∧ err ≠ some .ErrNoRows then ⟨db1, w, true⟩
    else
      let response := credibilityResponse userID goodList badList
      ⟨db1, (w.WriteHeader 200).Write (.json (jsonMarshal response)), false⟩

/-- Go `Env.rateUser`.  The self-vote branch writes status 400 and its message and
falls through to the code below it. -/
def rateUser (db : DB) (r : Request) : Served :=
  let w : ResponseWriter := ⟨none, []⟩
  let targetID := r.Get "target_id"
  let voteEncoded := r.Get "vote"
  if targetID = "" ∨ voteEncoded = "" then
    ⟨db, (w.WriteHeader 400).Write (.text "missing required request headers"), false⟩
  else if ¬ VerifyID targetID then
    ⟨db, (w.WriteHeader 400).Write (.text "target_id field must be a number"), false⟩
  else
    let (userID, vote, err) := DecodeVoteAndUser voteEncoded
    match err with
    | some e =>
      ⟨db, (w.WriteHeader 400).Write (.errorf "error parsing encoded vote field: %v" e), false⟩
    | none =>
      let w1 :=
        if userID = targetID then (w.WriteHeader 400).Write (.text "cant vote for yourself")
        else w
      let (db1, rateErr) := rate db targetID userID vote
      if rateErr ≠ none ∧ rateErr.map GoError.Error ≠ some "user already voted" then
        ⟨db1, w1, true⟩
      else
        let w2 :=
          if rateErr ≠ none ∧ rateErr.map GoError.Error = some "user already voted" then
            (w1.WriteHeader 200).Write (.text "Nothing to update, user already voted")
          else w1
        ⟨db1, w2.WriteHeader 200, false⟩

/-! ## States of a record used in the statements -/

/-- The table with the positive list of the target overwritten by `voters`. -/
def setPositive (rows : List Row) (targetID : String) (voters : List String) : List Row :=
  rows.map (fun r =>
    if r.torn_id = targetID then ⟨r.torn_id, stringsJoin voters ';', r.negative⟩ else r)

/-- The table with the negative list of the target overwritten by `voters`. -/
def setNegative (rows : List Row) (targetID : String) (voters : List String) : List Row :=
  rows.map (fun r =>
    if r.torn_id = targetID then ⟨r.torn_id, r.positive, stringsJoin voters ';'⟩ else r)

/-! ## Identifier formats used in the statements -/

/-- Whether a `strconv` call returned no error. -/
def succeeded {α : Type} : Except NumError α → Bool
  | .ok _ => true
  | .error _ => false

/-- The number written by a sequence of decimal digits, most significant first. -/
def decimalValue (ds : List Char) : Nat :=
  ds.foldl (fun n c => n * 10 + (c.toNat - 48)) 0

/-- A decimal numeric string: non-empty and made only of the digits 0-9. -/
def isDecimalString (s : String) : Bool :=
  !s.data.isEmpty && s.data.all isDigit

/-- The bytes of a decimal integer that fits `int`: an optional sign `+` or `-`, then one or more
digits 0-9, the signed value lying between `-2^(intSize-1)` and `2^(intSize-1) - 1`. -/
def isIntChars : List Char → Bool
  | [] => false
  | c :: cs =>
    if c = '-' then
      !cs.isEmpty && cs.all isDigit && decide (decimalValue cs ≤ 2 ^ (intSize - 1))
    else if c = '+' then
      !cs.isEmpty && cs.all isDigit && decide (decimalValue cs < 2 ^ (intSize - 1))
    else (c :: cs).all isDigit && decide (decimalValue (c :: cs) < 2 ^ (intSize - 1))

/-- The string is a decimal integer that fits `int` (see `isIntChars`). -/
def isIntString (s : String) : Bool := isIntChars s.data

/-! ## Properties of `VotedOnUser` -/

theorem votedLoop_of_not_mem (userID : String) (l : List String) (index found : Int)
    (h : userID ∉ l) : votedLoop userID l index found = found := by
  induction l generalizing index found with
  | nil => rfl
  | cons v rest ih =>
    have hv : v ≠ userID := fun e => h (by simp [e])
    have hr : userID ∉ rest := fun m => h (List.mem_cons_of_mem _ m)
    simp [votedLoop, hv, ih _ _ hr]

theorem votedLoop_bounds (userID : String) (l : List String) (index found : Int)
    (hf : found < index) :
    (userID ∈ l → index ≤ votedLoop userID l index found) ∧
      votedLoop userID l index found < index + l.length := by
  induction l generalizing index found with
  | nil => simp [votedLoop]; omega
  | cons v rest ih =>
    simp only [votedLoop, List.length_cons, List.mem_cons]
    by_cases hv : v = userID
    · have h := ih (index + 1) index (by omega)
      simp only [hv, if_true]
      by_cases hm : userID ∈ rest
      · have := h.1 hm
        refine ⟨fun _ => by omega, ?_⟩
        have := h.2
        push_cast
        omega
      · rw [votedLoop_of_not_mem _ _ _ _ hm]
        refine ⟨fun _ => le_refl _, ?_⟩
        push_cast
        omega
    · have h := ih (index + 1) found (by omega)
      simp only [hv, if_false]
      refine ⟨fun hm => ?_, ?_⟩
      · rcases hm with hm | hm
        · exact absurd hm.symm hv
        · have := h.1 hm
          omega
      · have := h.2
        push_cast
        omega

theorem votedLoop_eq_neg_one_iff (userID : String) (l : List String) :
    votedLoop userID l 0 (-1) = -1 ↔ userID ∉ l := by
  constructor
  · intro h hm
    have := (votedLoop_bounds userID l 0 (-1) (by omega)).1 hm
    omega
  · exact votedLoop_of_not_mem userID l 0 (-1)

/-! ## `strings.Split` after `strings.Join` -/

theorem splitChars_ne_nil (sep : Char) (s : List Char) : splitChars sep s ≠ [] := by
  induction s with
  | nil => simp [splitChars]
  | cons c cs ih =>
    unfold splitChars
    split_ifs
    · simp
    · split
      · simp
      · simp

theorem splitChars_of_not_mem (sep : Char) (a : List Char) (h : sep ∉ a) :
    splitChars sep a = [a] := by
  induction a with
  | nil => rfl
  | cons c cs ih =>
    have hc : c ≠ sep := fun e => h (by simp [e])
    have hcs : sep ∉ cs := fun m => h (List.mem_cons_of_mem _ m)
    simp [splitChars, hc, ih hcs]

theorem splitChars_append_sep (sep : Char) (a rest : List Char) (h : sep ∉ a) :
    splitChars sep (a ++ sep :: rest) = a :: splitChars sep rest := by
  induction a with
  | nil => simp [splitChars]
  | cons c cs ih =>
    have hc : c ≠ sep := fun e => h (by simp [e])
    have hcs : sep ∉ cs := fun m => h (List.mem_cons_of_mem _ m)
    simp [splitChars, hc, ih hcs]

theorem splitChars_joinChars (sep : Char) (ls : List (List Char)) (hne : ls ≠ [])
    (h : ∀ l ∈ ls, sep ∉ l) : splitChars sep (joinChars sep ls) = ls := by
  induction ls with
  | nil => exact absurd rfl hne
  | cons a rest ih =>
    cases rest with
    | nil => simpa [joinChars] using splitChars_of_not_mem sep a (h a (by simp))
    | cons b rest2 =>
      have ha : sep ∉ a := h a (by simp)
      have hr : ∀ l ∈ b :: rest2, sep ∉ l := fun l m => h l (List.mem_cons_of_mem _ m)
      simp only [joinChars]
      rw [splitChars_append_sep sep a _ ha, ih (by simp) hr]

theorem joinChars_ne_nil (sep : Char) (ls : List (List Char)) (hne : ls ≠ [])
    (h : ∀ l ∈ ls, l ≠ []) : joinChars sep ls ≠ [] := by
  cases ls with
  | nil => exact absurd rfl hne
  | cons a rest =>
    have ha : a ≠ [] := h a (by simp)
    cases rest with
    | nil => simpa [joinChars] using ha
    | cons b rest2 => simp [joinChars, ha]

/-- A voter list whose IDs are non-empty and free of `';'` is read back from its
joined column value: the column parse of `getVoteList` undoes `strings.Join`. -/
theorem split_join_voters (L : List String) (h : ∀ v ∈ L, v ≠ "" ∧ ';' ∉ v.data) :
    (if (stringsJoin L ';').length > 0 then stringsSplit (stringsJoin L ';') ';' else []) = L := by
  by_cases hL : L = []
  · subst hL
    rfl
  · have hne : L.map String.data ≠ [] := by simpa using hL
    have h1 : ∀ l ∈ L.map String.data, ';' ∉ l := by
      intro l hl
      rcases List.mem_map.1 hl with ⟨v, hv, rfl⟩
      exact (h v hv).2
    have h2 : ∀ l ∈ L.map String.data, l ≠ [] := by
      intro l hl
      rcases List.mem_map.1 hl with ⟨v, hv, rfl⟩
      intro e
      exact (h v hv).1 (String.ext e)
    have hlen : (stringsJoin L ';').length > 0 := by
      simp only [stringsJoin, String.length]
      exact List.length_pos.2 (joinChars_ne_nil ';' _ hne h2)
    rw [if_pos hlen]
    simp only [stringsSplit, stringsJoin]
    rw [splitChars_joinChars ';' _ hne h1, List.map_map]
    conv_rhs => rw [← List.map_id L]
    apply List.map_congr_left
    intro v _
    rfl

/-! ## The table under `UPDATE`, `INSERT` and `SELECT` -/

theorem find_eq_none_of_absent (rows : List Row) (t : String)
    (h : ∀ r ∈ rows, r.torn_id ≠ t) :
    rows.find? (fun r => decide (r.torn_id = t)) = none := by
  rw [List.find?_eq_none]
  intro r hr
  simpa using h r hr

theorem map_eq_self_of_absent (rows : List Row) (t : String) (f : Row → Row)
    (h : ∀ r ∈ rows, r.torn_id ≠ t) :
    rows.map (fun r => if r.torn_id = t then f r else r) = rows := by
  conv_rhs => rw [← List.map_id rows]
  apply List.map_congr_left
  intro r hr
  simp [h r hr]

/-! ## The tally returned by `fetchCredibility` -/

theorem credibilityResponse_voted (userID : String) (goodList badList : List String) :
    (credibilityResponse userID goodList badList).Voted =
      if userID ∈ goodList then "Positive" else if userID ∈ badList then "Negative" else "" := by
  have hg := votedLoop_eq_neg_one_iff userID goodList
  have hb := votedLoop_eq_neg_one_iff userID badList
  have hg2 := votedLoop_bounds userID goodList 0 (-1) (by omega)
  have hb2 := votedLoop_bounds userID badList 0 (-1) (by omega)
  simp only [credibilityResponse, VotedOnUser]
  by_cases h1 : userID ∈ goodList
  · have := hg2.1 h1
    simp only [h1, if_true]
    rw [if_pos (by omega)]
  · rw [hg.2 h1]
    simp only [h1, if_false]
    by_cases h2 : userID ∈ badList
    · have := hb2.1 h2
      simp only [h2, if_true]
      rw [if_neg (by omega), if_pos (by omega)]
    · have := hb.2 h2
      simp only [h2, if_false]
      rw [if_neg (by omega), if_neg (by omega)]

/-- The JSON object of a tally, written out: the two counts, then `voted` unless the
viewer is in neither list. -/
theorem jsonMarshal_credibilityResponse (userID : String) (goodList badList : List String) :
    jsonMarshal (credibilityResponse userID goodList badList) =
      [("positives", .num goodList.length), ("negatives", .num badList.length)] ++
        (if userID ∈ goodList then [("voted", .str "Positive")]
         else if userID ∈ badList then [("voted", .str "Negative")] else []) := by
  have hv := credibilityResponse_voted userID goodList badList
  have h1 : (credibilityResponse userID goodList badList).PositiveVotes = goodList.length := rfl
  have h2 : (credibilityResponse userID goodList badList).NegativeVotes = badList.length := rfl
  unfold jsonMarshal
  rw [hv, h1, h2]
  by_cases hg : userID ∈ goodList
  · simp only [hg, if_true]
    rfl
  · by_cases hb : userID ∈ badList
    · simp only [hg, hb, if_true, if_false]
      rfl
    · simp only [hg, hb, if_false]
      rfl

/-- What `fetchCredibility` does once the headers are valid and the read returned no
error or `sql.ErrNoRows`: it answers 200 with the tally of the fetched lists. -/
theorem fetchCredibility_of_valid (db : DB) (r : Request)
    (ht : VerifyID (r.Get "target_id") = true) (hu : VerifyID (r.Get "user_id") = true)
    (hread : (getVoteList db (r.Get "target_id")).2.2.2 = none ∨
      (getVoteList db (r.Get "target_id")).2.2.2 = some .ErrNoRows) :
    fetchCredibility db r =
      ⟨(getVoteList db (r.Get "target_id")).1,
        ⟨some 200, [.json (jsonMarshal (credibilityResponse (r.Get "user_id")
          (getVoteList db (r.Get "target_id")).2.1
          (getVoteList db (r.Get "target_id")).2.2.1))]⟩, false⟩ := by
  have ht0 : r.Get "target_id" ≠ "" := by
    intro e
    rw [e] at ht
    exact absurd ht (by decide)
  have hu0 : r.Get "user_id" ≠ "" := by
    intro e
    rw [e] at hu
    exact absurd hu (by decide)
  have hread2 : ¬ ((getVoteList db (r.Get "target_id")).2.2.2 ≠ none ∧
      (getVoteList db (r.Get "target_id")).2.2.2 ≠ some .ErrNoRows) := by
    rintro ⟨h1, h2⟩
    rcases hread with h | h
    · exact h1 h
    · exact h2 h
  unfold fetchCredibility
  simp only [ht0, hu0, ht, hu, or_self, not_true_eq_false, if_false]
  rw [if_neg hread2]
  rfl

/-- C7: `fetchCredibility`, given valid `target_id` and `user_id` headers and a read
of the store that returns no error or `sql.ErrNoRows`, answers 200 with a JSON object
whose `positives` is the length of the fetched positive list and whose `negatives` is
the length of the fetched negative list, and whose `voted` is "Positive" when the
viewer is in the positive list, "Negative" when the viewer is in the negative list and
not in the positive one, and is omitted exactly when the viewer is in neither list;
for a row holding any two lists of non-empty, `';'`-free IDs the fetched lists are
those two lists; and the response built from any two lists has these fields. -/
theorem fetchCredibility_tally (db : DB) (r : Request) (userID : String)
    (goodList badList : List String) :
    (VerifyID (r.Get "target_id") = true → VerifyID (r.Get "user_id") = true →
      ((getVoteList db (r.Get "target_id")).2.2.2 = none ∨
        (getVoteList db (r.Get "target_id")).2.2.2 = some .ErrNoRows) →
      fetchCredibility db r =
        ⟨(getVoteList db (r.Get "target_id")).1,
          ⟨some 200,
            [.json ([("positives",
                  .num (getVoteList db (r.Get "target_id")).2.1.length),
                ("negatives",
                  .num (getVoteList db (r.Get "target_id")).2.2.1.length)] ++
              (if r.Get "user_id" ∈ (getVoteList db (r.Get "target_id")).2.1 then
                [("voted", .str "Positive")]
               else if r.Get "user_id" ∈ (getVoteList db (r.Get "target_id")).2.2.1 then
                [("voted", .str "Negative")]
               else []))]⟩,
          false⟩) ∧
    (∀ rows : List Row, ∀ row : Row,
      VerifyID (r.Get "target_id") = true → VerifyID (r.Get "user_id") = true →
      rows.find? (fun x => decide (x.torn_id = r.Get "target_id")) = some row →
      row.positive = stringsJoin goodList ';' → row.negative = stringsJoin badList ';' →
      (∀ v ∈ goodList, v ≠ "" ∧ ';' ∉ v.data) → (∀ v ∈ badList, v ≠ "" ∧ ';' ∉ v.data) →
      fetchCredibility ⟨rows, []⟩ r =
        ⟨⟨rows, []⟩,
          ⟨some 200,
            [.json ([("positives", .num goodList.length),
                ("negatives", .num badList.length)] ++
              (if r.Get "user_id" ∈ goodList then [("voted", .str "Positive")]
               else if r.Get "user_id" ∈ badList then [("voted", .str "Negative")]
               else []))]⟩,
          false⟩) ∧
    (credibilityResponse userID goodList badList).PositiveVotes = goodList.length ∧
    (credibilityResponse userID goodList badList).NegativeVotes = badList.length ∧
    (userID ∈ goodList → (credibilityResponse userID goodList badList).Voted = "Positive") ∧
    (userID ∈ badList → userID ∉ goodList →
      (credibilityResponse userID goodList badList).Voted = "Negative") ∧
    ((credibilityResponse userID goodList badList).Voted = "" ↔
      userID ∉ goodList ∧ userID ∉ badList) ∧
    ((jsonMarshal (credibilityResponse userID goodList badList)).lookup "voted" = none ↔
      userID ∉ goodList ∧ userID ∉ badList) ∧
    (jsonMarshal (credibilityResponse userID goodList badList)).lookup "positives" =
      some (.num goodList.length) ∧
    (jsonMarshal (credibilityResponse userID goodList badList)).lookup "negatives" =
      some (.num badList.length) ∧
    ((fetchCredibility db r).w.status = some 200 →
      (fetchCredibility db r).w.body =
        [.json (jsonMarshal (credibilityResponse (r.Get "user_id")
          (getVoteList db (r.Get "target_id")).2.1
          (getVoteList db (r.Get "target_id")).2.2.1))]) := by
  have hv := credibilityResponse_voted userID goodList badList
  have hE : (credibilityResponse userID goodList badList).Voted = "" ↔
      userID ∉ goodList ∧ userID ∉ badList := by
    rw [hv]
    by_cases h1 : userID ∈ goodList
    · simp [h1]
    · by_cases h2 : userID ∈ badList
      · simp [h1, h2]
      · simp [h1, h2]
  refine ⟨?_, ?_, rfl, rfl, ?_, ?_, hE, ?_, ?_, ?_, ?_⟩
  · intro ht hu hread
    rw [fetchCredibility_of_valid db r ht hu hread, jsonMarshal_credibilityResponse]
  · intro rows row ht hu hrow hp hn hg hb
    have hgl : getVoteList ⟨rows, []⟩ (r.Get "target_id") =
        (⟨rows, []⟩, goodList, badList, none) := by
      have h1 := split_join_voters goodList hg
      have h2 := split_join_voters badList hb
      simp only [getVoteList, DB.QueryRow, DB.next, List.headD, List.tail, hrow, hp, hn]
      simp only [Bool.false_eq_true, if_false, ne_eq, not_true_eq_false]
      rw [h1, h2]
    have := fetchCredibility_of_valid ⟨rows, []⟩ r ht hu (by rw [hgl]; exact Or.inl rfl)
    rw [this, hgl, jsonMarshal_credibilityResponse]
  · intro h
    rw [hv, if_pos h]
  · intro h2 h1
    rw [hv, if_neg h1, if_pos h2]
  · rw [← hE]
    by_cases h : (credibilityResponse userID goodList badList).Voted = ""
    · simp [jsonMarshal, h, List.lookup]
    · simp only [jsonMarshal, h, if_false, iff_false]
      intro hn
      have hl : List.lookup "voted"
          ([("positives", JSONValue.num (credibilityResponse userID goodList badList).PositiveVotes),
            ("negatives", JSONValue.num (credibilityResponse userID goodList badList).NegativeVotes)]
            ++ [("voted", JSONValue.str (credibilityResponse userID goodList badList).Voted)])
          = some (JSONValue.str (credibilityResponse userID goodList badList).Voted) := rfl
      rw [hl] at hn
      exact Option.noConfusion hn
  · simp [jsonMarshal, List.lookup, credibilityResponse]
  · by_cases h : (credibilityResponse userID goodList badList).Voted = ""
    · simp only [jsonMarshal, h, if_true, List.append_nil]
      rfl
    · simp only [jsonMarshal, h, if_false]
      rfl
  · unfold fetchCredibility
    simp only []
    split_ifs with h1 h2 h3
    · simp [ResponseWriter.WriteHeader, ResponseWriter.Write]
    · simp [ResponseWriter.WriteHeader, ResponseWriter.Write]
    · simp
    · simp [ResponseWriter.WriteHeader, ResponseWriter.Write]

/-- C7 at the record {positive: ["5"], negative: []} of target "9" and viewer "5":
the handler answers 200 with positives 1, negatives 0 and voted "Positive". -/
theorem fetchCredibility_tally_witness :
    fetchCredibility ⟨[⟨"9", "5", ""⟩], []⟩ ⟨[("target_id", "9"), ("user_id", "5")]⟩ =
      ⟨⟨[⟨"9", "5", ""⟩], []⟩,
        ⟨some 200,
          [.json [("positives", .num 1), ("negatives", .num 0), ("voted", .str "Positive")]]⟩,
        false⟩ :=
  (fetchCredibility_tally ⟨[], []⟩ ⟨[("target_id", "9"), ("user_id", "5")]⟩ "5" ["5"] []).2.1
    [⟨"9", "5", ""⟩] ⟨"9", "5", ""⟩ (by decide) (by decide) (by decide) (by decide)
    (by decide) (by decide) (by decide)

/-! ## The first vote on a target without a row -/

/-- C5: when the target has no row and every store call succeeds, `rate` returns no
error and leaves the table with one new row for the target whose column for the
requested direction holds exactly the voter and whose other column is empty; read
back by `getVoteList` (for a voter ID that is non-empty and free of `';'`) this is the
list `[voterID]` for the requested direction and the empty list for the other; and it
is the table `rate` produces from a row with two empty lists. -/
theorem rate_first_vote (rows : List Row) (targetID userID vote : String)
    (hrow : ∀ r ∈ rows, r.torn_id ≠ targetID)
    (hvote : vote = "positive" ∨ vote = "negative") :
    rate ⟨rows, []⟩ targetID userID vote =
      (⟨rows ++ [⟨targetID, if vote = "positive" then userID else "",
          if vote = "negative" then userID else ""⟩], []⟩, none) ∧
    (userID ≠ "" → ';' ∉ userID.data →
      getVoteList (rate ⟨rows, []⟩ targetID userID vote).1 targetID =
        ((rate ⟨rows, []⟩ targetID userID vote).1,
          if vote = "positive" then [userID] else [],
          if vote = "negative" then [userID] else [], none)) ∧
    rate ⟨rows ++ [⟨targetID, "", ""⟩], []⟩ targetID userID vote =
      rate ⟨rows, []⟩ targetID userID vote := by
  have hfind := find_eq_none_of_absent rows targetID hrow
  have hmapP := fun v => map_eq_self_of_absent rows targetID
    (fun r => ⟨r.torn_id, v, r.negative⟩) hrow
  have hmapN := fun v => map_eq_self_of_absent rows targetID
    (fun r => ⟨r.torn_id, r.positive, v⟩) hrow
  have hjoin : stringsJoin [userID] ';' = userID := rfl
  have hmain : rate ⟨rows, []⟩ targetID userID vote =
      (⟨rows ++ [⟨targetID, if vote = "positive" then userID else "",
          if vote = "negative" then userID else ""⟩], []⟩, none) := by
    rcases hvote with rfl | rfl
    · simp [rate, getVoteList, DB.QueryRow, DB.next, hfind, createCredibilityRowForTarget,
        DB.ExecInsert, VotedOnUser, votedLoop, updateCredibility, DB.ExecUpdate, hjoin, hmapP]
    · simp [rate, getVoteList, DB.QueryRow, DB.next, hfind, createCredibilityRowForTarget,
        DB.ExecInsert, VotedOnUser, votedLoop, updateCredibility, DB.ExecUpdate, hjoin, hmapN]
  refine ⟨hmain, ?_, ?_⟩
  · intro hu hsemi
    have hlen : 0 < userID.length := by
      simp only [String.length]
      exact List.length_pos.2 (fun e => hu (String.ext e))
    have hsplit : stringsSplit userID ';' = [userID] := by
      simp only [stringsSplit, splitChars_of_not_mem ';' userID.data hsemi]
      rfl
    rw [hmain]
    rcases hvote with rfl | rfl
    · simp [getVoteList, DB.QueryRow, DB.next, hfind, List.find?_append, hlen, hsplit]
    · simp [getVoteList, DB.QueryRow, DB.next, hfind, List.find?_append, hlen, hsplit]
  · rw [hmain]
    rcases hvote with rfl | rfl
    · simp [rate, getVoteList, DB.QueryRow, DB.next, hfind, List.find?_append,
        VotedOnUser, votedLoop, updateCredibility, DB.ExecUpdate, hjoin, hmapP]
    · simp [rate, getVoteList, DB.QueryRow, DB.next, hfind, List.find?_append,
        VotedOnUser, votedLoop, updateCredibility, DB.ExecUpdate, hjoin, hmapN]

/-- C5 at voter "5", target "9", direction "positive", on the empty table. -/
theorem rate_first_vote_witness :
    rate ⟨[], []⟩ "9" "5" "positive" =
      (⟨[] ++ [⟨"9", if "positive" = "positive" then "5" else "",
          if "positive" = "negative" then "5" else ""⟩], []⟩, none) ∧
    (("5" : String) ≠ "" → ';' ∉ ("5" : String).data →
      getVoteList (rate ⟨[], []⟩ "9" "5" "positive").1 "9" =
        ((rate ⟨[], []⟩ "9" "5" "positive").1,
          if "positive" = "positive" then ["5"] else [],
          if "positive" = "negative" then ["5"] else [], none)) ∧
    rate ⟨[] ++ [⟨"9", "", ""⟩], []⟩ "9" "5" "positive" =
      rate ⟨[], []⟩ "9" "5" "positive" :=
  rate_first_vote [] "9" "5" "positive" (by simp) (Or.inl rfl)

/-! ## Persistence of a voter list -/

theorem find_map_of_key (rows : List Row) (t : String) (f : Row → Row)
    (hf : ∀ r, (f r).torn_id = r.torn_id) :
    (rows.map f).find? (fun r => decide (r.torn_id = t)) =
      (rows.find? (fun r => decide (r.torn_id = t))).map f := by
  rw [List.find?_map]
  congr 1
  apply congrArg (fun p => List.find? p rows)
  funext r
  simp [hf r]

theorem find_setPositive (rows : List Row) (t : String) (voters : List String) (r : Row)
    (h : rows.find? (fun r => decide (r.torn_id = t)) = some r) :
    (setPositive rows t voters).find? (fun r => decide (r.torn_id = t)) =
      some ⟨r.torn_id, stringsJoin voters ';', r.negative⟩ := by
  have ht : r.torn_id = t := by simpa using List.find?_some h
  unfold setPositive
  rw [find_map_of_key rows t _ (fun r => by split_ifs <;> rfl), h]
  simp [ht]

theorem find_setNegative (rows : List Row) (t : String) (voters : List String) (r : Row)
    (h : rows.find? (fun r => decide (r.torn_id = t)) = some r) :
    (setNegative rows t voters).find? (fun r => decide (r.torn_id = t)) =
      some ⟨r.torn_id, r.positive, stringsJoin voters ';'⟩ := by
  have ht : r.torn_id = t := by simpa using List.find?_some h
  unfold setNegative
  rw [find_map_of_key rows t _ (fun r => by split_ifs <;> rfl), h]
  simp [ht]

/-- C10: for a list `L` of voter IDs, each non-empty and free of `';'`, and a target
that has a row, the column written by `updateCredibility` (`strings.Join(L, ";")`) is
read back by `getVoteList` as `L` itself, for the positive and for the negative
column; the empty list is written as the empty string, which is read back as the empty
list. -/
theorem voter_list_round_trip (rows : List Row) (targetID : String) (r : Row)
    (L : List String) (hL : ∀ v ∈ L, v ≠ "" ∧ ';' ∉ v.data)
    (hrow : rows.find? (fun r => decide (r.torn_id = targetID)) = some r) :
    updateCredibility ⟨rows, []⟩ L targetID "positive" =
      (⟨setPositive rows targetID L, []⟩, none) ∧
    (getVoteList ⟨setPositive rows targetID L, []⟩ targetID).2.1 = L ∧
    (getVoteList ⟨setPositive rows targetID L, []⟩ targetID).2.2.2 = none ∧
    updateCredibility ⟨rows, []⟩ L targetID "negative" =
      (⟨setNegative rows targetID L, []⟩, none) ∧
    (getVoteList ⟨setNegative rows targetID L, []⟩ targetID).2.2.1 = L ∧
    (getVoteList ⟨setNegative rows targetID L, []⟩ targetID).2.2.2 = none ∧
    stringsJoin [] ';' = "" ∧
    (getVoteList ⟨setPositive rows targetID [], []⟩ targetID).2.1 = [] := by
  have hP := find_setPositive rows targetID L r hrow
  have hN := find_setNegative rows targetID L r hrow
  have hP0 := find_setPositive rows targetID [] r hrow
  have hsj := split_join_voters L hL
  refine ⟨?_, ?_, ?_, ?_, ?_, ?_, rfl, ?_⟩
  · simp [updateCredibility, DB.ExecUpdate, DB.next, setPositive]
  · simp only [getVoteList, DB.QueryRow, DB.next, List.headD, List.tail, hP]
    simpa using hsj
  · simp [getVoteList, DB.QueryRow, DB.next, hP]
  · simp [updateCredibility, DB.ExecUpdate, DB.next, setNegative]
  · simp only [getVoteList, DB.QueryRow, DB.next, List.headD, List.tail, hN]
    simpa using hsj
  · simp [getVoteList, DB.QueryRow, DB.next, hN]
  · simp only [getVoteList, DB.QueryRow, DB.next, List.headD, List.tail, hP0]
    have h0 : (stringsJoin [] ';').length = 0 := rfl
    simp [h0]

/-- C10 at the list ["5", "6"] on a table holding an empty row for target "9". -/
theorem voter_list_round_trip_witness :
    updateCredibility ⟨[⟨"9", "", ""⟩], []⟩ ["5", "6"] "9" "positive" =
      (⟨setPositive [⟨"9", "", ""⟩] "9" ["5", "6"], []⟩, none) ∧
    (getVoteList ⟨setPositive [⟨"9", "", ""⟩] "9" ["5", "6"], []⟩ "9").2.1 = ["5", "6"] ∧
    (getVoteList ⟨setPositive [⟨"9", "", ""⟩] "9" ["5", "6"], []⟩ "9").2.2.2 = none ∧
    updateCredibility ⟨[⟨"9", "", ""⟩], []⟩ ["5", "6"] "9" "negative" =
      (⟨setNegative [⟨"9", "", ""⟩] "9" ["5", "6"], []⟩, none) ∧
    (getVoteList ⟨setNegative [⟨"9", "", ""⟩] "9" ["5", "6"], []⟩ "9").2.2.1 = ["5", "6"] ∧
    (getVoteList ⟨setNegative [⟨"9", "", ""⟩] "9" ["5", "6"], []⟩ "9").2.2.2 = none ∧
    stringsJoin [] ';' = "" ∧
    (getVoteList ⟨setPositive [⟨"9", "", ""⟩] "9" [], []⟩ "9").2.1 = [] :=
  voter_list_round_trip [⟨"9", "", ""⟩] "9" ⟨"9", "", ""⟩ ["5", "6"] (by decide) (by decide)

/-! ## A vote switch under failing writes -/

/-- C9 (amended): on the switching path of `rate` (the read succeeds, the target is
found in the list opposite to the requested direction and not in the requested one),
with `o1` and `o2` telling whether the removal write and the append write fail: the
table is left unchanged when the removal write fails, is fully switched (removal and
append both applied) when both writes succeed, and holds the removal without the
append when the removal write succeeds and the append write fails. -/
theorem rate_switch_outcomes (rows : List Row) (rest : List Bool) (o1 o2 : Bool)
    (targetID userID : String) (goodList badList : List String)
    (hread : getVoteList ⟨rows, false :: o1 :: o2 :: rest⟩ targetID =
      (⟨rows, o1 :: o2 :: rest⟩, goodList, badList, none)) :
    ((VotedOnUser targetID goodList badList).1 = -1 →
      (VotedOnUser targetID goodList badList).2 ≠ -1 →
      rate ⟨rows, false :: o1 :: o2 :: rest⟩ targetID userID "positive" =
        if o1 then (⟨rows, o2 :: rest⟩, some .Driver)
        else if o2 then
          (⟨setNegative rows targetID
              (badList.eraseIdx (VotedOnUser targetID goodList badList).2.toNat), rest⟩,
            some .Driver)
        else
          (⟨setPositive
              (setNegative rows targetID
                (badList.eraseIdx (VotedOnUser targetID goodList badList).2.toNat))
              targetID (goodList ++ [userID]), rest⟩, none)) ∧
    ((VotedOnUser targetID goodList badList).2 = -1 →
      (VotedOnUser targetID goodList badList).1 ≠ -1 →
      rate ⟨rows, false :: o1 :: o2 :: rest⟩ targetID userID "negative" =
        if o1 then (⟨rows, o2 :: rest⟩, some .Driver)
        else if o2 then
          (⟨setPositive rows targetID
              (goodList.eraseIdx (VotedOnUser targetID goodList badList).1.toNat), rest⟩,
            some .Driver)
        else
          (⟨setNegative
              (setPositive rows targetID
                (goodList.eraseIdx (VotedOnUser targetID goodList badList).1.toNat))
              targetID (badList ++ [userID]), rest⟩, none)) := by
  constructor
  · intro hp hn
    cases o1 <;> cases o2 <;>
      simp [rate, hread, hp, hn, updateCredibility, DB.ExecUpdate, DB.next, setPositive,
        setNegative]
  · intro hn hp
    cases o1 <;> cases o2 <;>
      simp [rate, hread, hp, hn, updateCredibility, DB.ExecUpdate, DB.next, setPositive,
        setNegative]

/-- C9 at the record of target "9" with negative list ["9"], voter "5" voting
"positive", the removal write succeeding and the append write failing. -/
theorem rate_switch_outcomes_witness :
    ((VotedOnUser "9" [] ["9"]).1 = -1 →
      (VotedOnUser "9" [] ["9"]).2 ≠ -1 →
      rate ⟨[⟨"9", "", "9"⟩], false :: false :: true :: []⟩ "9" "5" "positive" =
        if false then (⟨[⟨"9", "", "9"⟩], true :: []⟩, some .Driver)
        else if true then
          (⟨setNegative [⟨"9", "", "9"⟩] "9"
              (["9"].eraseIdx (VotedOnUser "9" [] ["9"]).2.toNat), []⟩,
            some .Driver)
        else
          (⟨setPositive
              (setNegative [⟨"9", "", "9"⟩] "9"
                (["9"].eraseIdx (VotedOnUser "9" [] ["9"]).2.toNat))
              "9" ([] ++ ["5"]), []⟩, none)) ∧
    ((VotedOnUser "9" [] ["9"]).2 = -1 →
      (VotedOnUser "9" [] ["9"]).1 ≠ -1 →
      rate ⟨[⟨"9", "", "9"⟩], false :: false :: true :: []⟩ "9" "5" "negative" =
        if false then (⟨[⟨"9", "", "9"⟩], true :: []⟩, some .Driver)
        else if true then
          (⟨setPositive [⟨"9", "", "9"⟩] "9"
              (([] : List String).eraseIdx (VotedOnUser "9" [] ["9"]).1.toNat), []⟩,
            some .Driver)
        else
          (⟨setNegative
              (setPositive [⟨"9", "", "9"⟩] "9"
                (([] : List String).eraseIdx (VotedOnUser "9" [] ["9"]).1.toNat))
              "9" (["9"] ++ ["5"]), []⟩, none)) :=
  rate_switch_outcomes [⟨"9", "", "9"⟩] [] false true "9" "5" [] ["9"] (by decide)

/-- C9 (as stated, refuted): record of target "9" with positive list [] and negative
list ["9"]; voter "5" votes "positive"; the read and the removal write succeed, the
append write fails.  `rate` takes the switching path and leaves the row with both
lists empty: neither the original row nor the fully switched one. -/
theorem rate_switch_not_atomic :
    VotedOnUser "9" [] ["9"] = (-1, 0) ∧
    rate ⟨[⟨"9", "", "9"⟩], [false, false, true]⟩ "9" "5" "positive" =
      (⟨[⟨"9", "", ""⟩], []⟩, some .Driver) ∧
    rate ⟨[⟨"9", "", "9"⟩], []⟩ "9" "5" "positive" = (⟨[⟨"9", "5", ""⟩], []⟩, none) ∧
    ([⟨"9", "", ""⟩] : List Row) ≠ [⟨"9", "", "9"⟩] ∧
    ([⟨"9", "", ""⟩] : List Row) ≠ [⟨"9", "5", ""⟩] := by
  decide

/-! ## The code at the inputs where it departs from the specification -/

/-- C1 (the code at the failing input): from the empty table, voter "5" votes
"positive" and then "negative" on target "9"; both calls return no error and voter "5"
ends up in the positive and in the negative list of target "9". -/
theorem rate_voter_in_both_lists :
    rate ⟨[], []⟩ "9" "5" "positive" = (⟨[⟨"9", "5", ""⟩], []⟩, none) ∧
    rate ⟨[⟨"9", "5", ""⟩], []⟩ "9" "5" "negative" = (⟨[⟨"9", "5", "5"⟩], []⟩, none) ∧
    getVoteList ⟨[⟨"9", "5", "5"⟩], []⟩ "9" = (⟨[⟨"9", "5", "5"⟩], []⟩, ["5"], ["5"], none) := by
  decide

/-- C2 (the code at the failing input): on the record {positive: ["5"], negative: []}
of target "9", voter "5" voting "positive" again gets no `AlreadyVotedErr`; the call
returns no error and the positive list becomes ["5", "5"]. -/
theorem rate_repeated_vote_appends :
    rate ⟨[⟨"9", "5", ""⟩], []⟩ "9" "5" "positive" = (⟨[⟨"9", "5;5", ""⟩], []⟩, none) ∧
    getVoteList ⟨[⟨"9", "5;5", ""⟩], []⟩ "9" =
      (⟨[⟨"9", "5;5", ""⟩], []⟩, ["5", "5"], [], none) := by
  decide

/-- C3 (the code at the failing input): on the record {positive: ["5"], negative: []}
of target "9", voter "5" voting "negative" is appended to the negative list and stays
in the positive list. -/
theorem rate_switch_keeps_old_vote :
    (rate ⟨[⟨"9", "5", ""⟩], []⟩ "9" "5" "negative").2 = none ∧
    getVoteList (rate ⟨[⟨"9", "5", ""⟩], []⟩ "9" "5" "negative").1 "9" =
      (⟨[⟨"9", "5", "5"⟩], []⟩, ["5"], ["5"], none) ∧
    VotedOnUser "9" ["5"] [] = (-1, -1) ∧
    VotedOnUser "5" ["5"] [] = (0, -1) := by
  decide

/-- C4 (the code at the failing input): a request with `target_id` "5" and `vote`
base64("5;positive") is answered with status 400 and "cant vote for yourself", and
the handler goes on to call `rate`, which inserts the row ("5", "5", "") into the
empty table. -/
theorem rateUser_self_vote_reaches_store :
    DecodeVoteAndUser "NTtwb3NpdGl2ZQ==" = ("5", "positive", none) ∧
    rateUser ⟨[], []⟩ ⟨[("target_id", "5"), ("vote", "NTtwb3NpdGl2ZQ==")]⟩ =
      ⟨⟨[⟨"5", "5", ""⟩], []⟩, ⟨some 400, [.text "cant vote for yourself"]⟩, false⟩ ∧
    rate ⟨[], []⟩ "5" "5" "positive" = (⟨[⟨"5", "5", ""⟩], []⟩, none) := by
  decide

/-! ## What `strconv.Atoi` accepts -/

theorem digits_foldl_ge (ds : List Char) (n : Nat) :
    n ≤ ds.foldl (fun n c => n * 10 + (c.toNat - 48)) n := by
  induction ds generalizing n with
  | nil => exact le_refl _
  | cons c cs ih =>
    simp only [List.foldl_cons]
    have := ih (n * 10 + (c.toNat - 48))
    omega

theorem digits_foldl_lt (ds : List Char) (n : Nat) (h : ds.all isDigit = true) :
    ds.foldl (fun n c => n * 10 + (c.toNat - 48)) n < (n + 1) * 10 ^ ds.length := by
  induction ds generalizing n with
  | nil => simp
  | cons c cs ih =>
    simp only [List.all_cons, Bool.and_eq_true] at h
    have hc : c.toNat - 48 ≤ 9 := by
      have := h.1
      simp only [isDigit, decide_eq_true_eq] at this
      omega
    have := ih (n * 10 + (c.toNat - 48)) h.2
    simp only [List.foldl_cons, List.length_cons]
    calc List.foldl (fun n c => n * 10 + (c.toNat - 48)) (n * 10 + (c.toNat - 48)) cs
        < (n * 10 + (c.toNat - 48) + 1) * 10 ^ cs.length := this
      _ ≤ ((n + 1) * 10) * 10 ^ cs.length := Nat.mul_le_mul_right _ (by omega)
      _ = (n + 1) * 10 ^ (cs.length + 1) := by rw [pow_succ]; ring

theorem atoiFastLoop_eq (ds : List Char) (n : Nat) :
    atoiFastLoop ds n =
      if ds.all isDigit then .ok (ds.foldl (fun n c => n * 10 + (c.toNat - 48)) n)
      else .error .ErrSyntax := by
  induction ds generalizing n with
  | nil => simp [atoiFastLoop]
  | cons c cs ih =>
    by_cases hc : isDigit c = true
    · simp [atoiFastLoop, hc, ih]
    · simp [atoiFastLoop, hc]

theorem parseUintLoop_ok_iff (ds : List Char) (n v : Nat) (hn : n < 2 ^ 64) :
    parseUintLoop 64 ds n = .ok v ↔
      (ds.all isDigit = true ∧
        ds.foldl (fun n c => n * 10 + (c.toNat - 48)) n < 2 ^ 64 ∧
        v = ds.foldl (fun n c => n * 10 + (c.toNat - 48)) n) := by
  induction ds generalizing n with
  | nil =>
    simp only [parseUintLoop, List.all_nil, List.foldl_nil, true_and, Except.ok.injEq]
    constructor
    · intro h; exact ⟨hn, h.symm⟩
    · intro h; exact h.2.symm
  | cons c cs ih =>
    by_cases hc : isDigit c = true
    · have hd : c.toNat - 48 ≤ 9 := by
        simp only [isDigit, decide_eq_true_eq] at hc
        omega
      have hge := digits_foldl_ge cs (n * 10 + (c.toNat - 48))
      simp only [parseUintLoop, hc, if_true, List.all_cons, Bool.true_and, List.foldl_cons]
      norm_num at hn ⊢
      by_cases h1 : 1844674407370955162 ≤ n
      · rw [if_pos h1]
        constructor
        · intro h; exact absurd h (by simp)
        · intro h; omega
      · rw [if_neg h1]
        have e10 : n * 10 % 18446744073709551616 = n * 10 := Nat.mod_eq_of_lt (by omega)
        rw [e10]
        by_cases h2 : n * 10 + (c.toNat - 48) < 18446744073709551616
        · have e1 : (n * 10 + (c.toNat - 48)) % 18446744073709551616
              = n * 10 + (c.toNat - 48) := Nat.mod_eq_of_lt h2
          rw [e1, if_neg (by omega)]
          have := ih (n * 10 + (c.toNat - 48)) (by norm_num; exact h2)
          norm_num at this
          exact this
        · have e1 : (n * 10 + (c.toNat - 48)) % 18446744073709551616
              = n * 10 + (c.toNat - 48) - 18446744073709551616 := by
            rw [Nat.mod_eq_sub_mod (by omega)]
            exact Nat.mod_eq_of_lt (by omega)
          rw [e1, if_pos (by omega)]
          constructor
          · intro h; exact absurd h (by simp)
          · intro h; omega
    · simp [parseUintLoop, hc]

theorem decimalValue_lt_of_short (ds : List Char) (h : ds.all isDigit = true)
    (hl : ds.length < 19) : decimalValue ds < 2 ^ 63 := by
  have h1 := digits_foldl_lt ds 0 h
  have h2 : 10 ^ ds.length ≤ 10 ^ 18 := Nat.pow_le_pow_right (by norm_num) (by omega)
  simp only [zero_add, one_mul] at h1
  unfold decimalValue
  calc _ < 10 ^ ds.length := h1
    _ ≤ 10 ^ 18 := h2
    _ ≤ 2 ^ 63 := by norm_num

theorem ParseUint_ok_iff (body : List Char) (un : Nat) :
    ParseUint body 64 = .ok un ↔
      (body ≠ [] ∧ body.all isDigit = true ∧ decimalValue body < 2 ^ 64 ∧
        un = decimalValue body) := by
  unfold ParseUint decimalValue
  by_cases hb : body = []
  · simp [hb]
  · simp only [hb, if_false, ne_eq, not_false_eq_true, true_and]
    exact parseUintLoop_ok_iff body 0 un (by norm_num)

theorem ParseInt_succeeded (cs : List Char) : succeeded (ParseInt cs) = isIntChars cs := by
  cases cs with
  | nil => simp [ParseInt, isIntChars, succeeded]
  | cons c rest =>
    have key : ∀ body : List Char, ∀ neg : Bool,
        succeeded (match ParseUint body 64 with
          | .error .ErrSyntax => (.error .ErrSyntax : Except NumError Int)
          | .error .ErrRange => .error .ErrRange
          | .ok un =>
            if ¬ (neg = true) ∧ un ≥ 2 ^ 63 then .error .ErrRange
            else if neg = true ∧ un > 2 ^ 63 then .error .ErrRange
            else .ok (if neg = true then - (un : Int) else (un : Int)))
        = (!body.isEmpty && body.all isDigit &&
            decide (if neg = true then decimalValue body ≤ 2 ^ 63
              else decimalValue body < 2 ^ 63)) := by
      intro body neg
      cases hP : ParseUint body 64 with
      | ok un =>
        obtain ⟨h1, h2, h3, h4⟩ := (ParseUint_ok_iff body un).1 hP
        have h1b : body.isEmpty = false := by
          cases body with
          | nil => exact absurd rfl h1
          | cons _ _ => rfl
        subst h4
        cases neg
        · by_cases hr : decimalValue body < 9223372036854775808
          · have : ¬ 9223372036854775808 ≤ decimalValue body := by omega
            simp [succeeded, h1b, h2, hr, this]
          · have : 9223372036854775808 ≤ decimalValue body := by omega
            simp [succeeded, h1b, h2, hr, this]
        · by_cases hr : decimalValue body ≤ 9223372036854775808
          · have : ¬ 9223372036854775808 < decimalValue body := by omega
            simp [succeeded, h1b, h2, hr, this]
          · have : 9223372036854775808 < decimalValue body := by omega
            simp [succeeded, h1b, h2, hr, this]
      | error e =>
        have hno : ¬ (body ≠ [] ∧ body.all isDigit = true ∧ decimalValue body < 2 ^ 64) := by
          intro h
          have := (ParseUint_ok_iff body (decimalValue body)).2 ⟨h.1, h.2.1, h.2.2, rfl⟩
          rw [hP] at this
          exact Except.noConfusion this
        have hfalse : (!body.isEmpty && body.all isDigit &&
            decide (if neg = true then decimalValue body ≤ 2 ^ 63
              else decimalValue body < 2 ^ 63)) = false := by
          by_contra hcon
          simp only [Bool.not_eq_false, Bool.and_eq_true, Bool.not_eq_true',
            decide_eq_true_eq] at hcon
          obtain ⟨⟨h1, h2⟩, h3⟩ := hcon
          apply hno
          refine ⟨?_, h2, ?_⟩
          · intro e
            rw [e] at h1
            simp at h1
          · cases neg
            · simp only [Bool.false_eq_true, if_false] at h3
              have : (2 : Nat) ^ 63 < 2 ^ 64 := by norm_num
              omega
            · simp only [if_true] at h3
              have : (2 : Nat) ^ 63 < 2 ^ 64 := by norm_num
              omega
        rw [hfalse]
        cases e <;> rfl
    by_cases hm : c = '-'
    · subst hm
      have := key rest true
      simpa [ParseInt, isIntChars, intSize] using this
    · by_cases hp : c = '+'
      · subst hp
        have := key rest false
        simpa [ParseInt, isIntChars, intSize] using this
      · have := key (c :: rest) false
        simpa [ParseInt, isIntChars, intSize, hm, hp] using this

theorem Atoi_succeeded (s : String) : succeeded (Atoi s) = isIntString s := by
  unfold Atoi isIntString
  generalize s.data = cs
  by_cases hfast : 0 < cs.length ∧ cs.length < 19
  · have key : ∀ body : List Char, ∀ neg : Bool, body.length < 19 →
        succeeded (match atoiFastLoop body 0 with
          | .error e => (.error e : Except NumError Int)
          | .ok n => .ok (if neg = true then - (n : Int) else (n : Int)))
        = (body.all isDigit &&
            decide (if neg = true then decimalValue body ≤ 2 ^ 63
              else decimalValue body < 2 ^ 63)) := by
      intro body neg hl
      rw [atoiFastLoop_eq]
      by_cases hd : body.all isDigit = true
      · have hv := decimalValue_lt_of_short body hd hl
        norm_num at hv
        have hv2 : decimalValue body ≤ 9223372036854775808 := by omega
        cases neg <;> simp [succeeded, hd, hv, hv2]
      · simp only [Bool.not_eq_true] at hd
        simp [succeeded, hd]
    simp only [hfast, and_self, if_true]
    cases cs with
    | nil => simp at hfast
    | cons c rest =>
      have hl : rest.length < 19 := by
        have := hfast.2
        simp only [List.length_cons] at this
        omega
      by_cases hm : c = '-'
      · subst hm
        by_cases he : rest = []
        · subst he
          simp [isIntChars, succeeded]
        · have hne : ¬ rest.length < 1 := by
            have := List.length_pos.2 he
            omega
          have hie : rest.isEmpty = false := by
            cases rest with
            | nil => exact absurd rfl he
            | cons _ _ => rfl
          have := key rest true hl
          simpa [isIntChars, intSize, hne, hie] using this
      · by_cases hp : c = '+'
        · subst hp
          by_cases he : rest = []
          · subst he
            simp [isIntChars, succeeded]
          · have hne : ¬ rest.length < 1 := by
              have := List.length_pos.2 he
              omega
            have hie : rest.isEmpty = false := by
              cases rest with
              | nil => exact absurd rfl he
              | cons _ _ => rfl
            have := key rest false hl
            simpa [isIntChars, intSize, hne, hie] using this
        · have := key (c :: rest) false hfast.2
          simpa [isIntChars, intSize, hm, hp] using this
  · rw [if_neg hfast]
    exact ParseInt_succeeded cs

/-- What `VerifyID` accepts is what `isIntString` describes. -/
theorem VerifyID_eq_isIntString (s : String) : VerifyID s = isIntString s := by
  rw [← Atoi_succeeded]
  unfold VerifyID succeeded
  cases Atoi s <;> rfl

/-! ## Identifier validation -/

/-- C8 (as stated, refuted): `VerifyID` accepts "-5" and "+7", which are not made of
digits only, and rejects the digit string "9223372036854775808"; a `GET /credibility`
request with `target_id` "-5" and `user_id` "+7" passes header validation and is
answered 200. -/
theorem VerifyID_not_digits_only :
    VerifyID "-5" = true ∧ isDecimalString "-5" = false ∧
    VerifyID "+7" = true ∧ isDecimalString "+7" = false ∧
    VerifyID "9223372036854775808" = false ∧ isDecimalString "9223372036854775808" = true ∧
    (fetchCredibility ⟨[], []⟩ ⟨[("target_id", "-5"), ("user_id", "+7")]⟩).w.status =
      some 200 := by
  decide

/-- C8 (amended): `VerifyID(s)` returns true exactly when `s` is an optional sign `+`
or `-` followed by one or more digits 0-9 whose signed value fits a 64-bit `int`;
consequently `GET /credibility` answers 400 exactly when `target_id` or `user_id` is
not such a string (an absent header is the empty string, which is not one). -/
theorem VerifyID_iff_isIntString (db : DB) (r : Request) (s : String) :
    (VerifyID s = true ↔ isIntString s = true) ∧
    isIntString "" = false ∧
    ((fetchCredibility db r).w.status = some 400 ↔
      ¬ (isIntString (r.Get "target_id") = true ∧ isIntString (r.Get "user_id") = true)) := by
  have h0 : isIntString "" = false := rfl
  refine ⟨by rw [VerifyID_eq_isIntString], h0, ?_⟩
  unfold fetchCredibility
  simp only []
  split_ifs with h1 h2 h3
  · simp only [ResponseWriter.WriteHeader, ResponseWriter.Write, Option.getD_some, true_iff]
    rintro ⟨ht, hu⟩
    rcases h1 with h1 | h1
    · rw [h1, h0] at ht
      exact Bool.noConfusion ht
    · rw [h1, h0] at hu
      exact Bool.noConfusion hu
  · simp only [ResponseWriter.WriteHeader, ResponseWriter.Write, Option.getD_some, true_iff]
    rintro ⟨ht, hu⟩
    rw [VerifyID_eq_isIntString, VerifyID_eq_isIntString, ht, hu] at h2
    simp at h2
  · rw [VerifyID_eq_isIntString, VerifyID_eq_isIntString] at h2
    simp only [Bool.not_eq_true, not_or, Bool.not_eq_false] at h2
    simp [h2.1, h2.2]
  · rw [VerifyID_eq_isIntString, VerifyID_eq_isIntString] at h2
    simp only [Bool.not_eq_true, not_or, Bool.not_eq_false] at h2
    simp [h2.1, h2.2, ResponseWriter.WriteHeader, ResponseWriter.Write]

/-! ## Decoding the vote header -/

theorem verifyVote_iff (vote : String) :
    verifyVote vote = true ↔ (vote = "positive" ∨ vote = "negative") := by
  unfold verifyVote validVotes
  by_cases h1 : vote = "positive"
  · subst h1
    simp [List.lookup]
  · by_cases h2 : vote = "negative"
    · subst h2
      simp only [or_true, iff_true]
      rfl
    · have e1 : (vote == "positive") = false := by simpa using h1
      have e2 : (vote == "negative") = false := by simpa using h2
      simp [List.lookup, e1, e2, h1, h2]

/-- C6 (as stated, refuted): base64("9223372036854775808;positive") is valid base64,
splits on `';'` into exactly two fields, the first made of digits only and the second
"positive", yet `DecodeVoteAndUser` returns the error "user_id encoded field must be a
number"; and base64("-5;negative"), whose first field is not made of digits only, is
decoded without error. -/
theorem DecodeVoteAndUser_digits_rejected :
    base64DecodeString "OTIyMzM3MjAzNjg1NDc3NTgwODtwb3NpdGl2ZQ==" =
      some "9223372036854775808;positive" ∧
    stringsSplit "9223372036854775808;positive" ';' = ["9223372036854775808", "positive"] ∧
    isDecimalString "9223372036854775808" = true ∧
    DecodeVoteAndUser "OTIyMzM3MjAzNjg1NDc3NTgwODtwb3NpdGl2ZQ==" =
      ("", "", some .UserIDNotNumber) ∧
    base64DecodeString "LTU7bmVnYXRpdmU=" = some "-5;negative" ∧
    isDecimalString "-5" = false ∧
    DecodeVoteAndUser "LTU7bmVnYXRpdmU=" = ("-5", "negative", none) := by
  decide

/-- C6 (amended): `DecodeVoteAndUser` returns an error when the input is rejected by
the standard base64 decoder, when the decoded text does not split on `';'` into exactly
two fields, when the first field is not an optional sign `+` or `-` followed by one or
more digits 0-9 whose signed value fits a 64-bit `int`, or when the second field is
neither "positive" nor "negative"; in every other case it returns the two fields
unchanged with a nil error.  base64("7;positive") decodes to ("7", "positive") and
base64("abc") is an error. -/
theorem DecodeVoteAndUser_cases (encodedStr : String) :
    (base64DecodeString encodedStr = none →
      DecodeVoteAndUser encodedStr = ("", "", some .CorruptInput)) ∧
    (∀ raw, base64DecodeString encodedStr = some raw →
      ((stringsSplit raw ';').length ≠ 2 →
        DecodeVoteAndUser encodedStr = ("", "", some .InvalidVoteHeader)) ∧
      (∀ userID vote, stringsSplit raw ';' = [userID, vote] →
        (isIntString userID = false →
          DecodeVoteAndUser encodedStr = ("", "", some .UserIDNotNumber)) ∧
        (isIntString userID = true → vote ≠ "positive" → vote ≠ "negative" →
          DecodeVoteAndUser encodedStr = ("", "", some .InvalidVoteType)) ∧
        (isIntString userID = true → (vote = "positive" ∨ vote = "negative") →
          DecodeVoteAndUser encodedStr = (userID, vote, none)))) ∧
    ((DecodeVoteAndUser encodedStr).2.2 = none ↔
      ∃ raw userID vote, base64DecodeString encodedStr = some raw ∧
        stringsSplit raw ';' = [userID, vote] ∧ isIntString userID = true ∧
        (vote = "positive" ∨ vote = "negative") ∧
        DecodeVoteAndUser encodedStr = (userID, vote, none)) ∧
    DecodeVoteAndUser "Nztwb3NpdGl2ZQ==" = ("7", "positive", none) ∧
    DecodeVoteAndUser "YWJj" = ("", "", some .InvalidVoteHeader) := by
  have hcases : ∀ raw, base64DecodeString encodedStr = some raw →
      ((stringsSplit raw ';').length ≠ 2 →
        DecodeVoteAndUser encodedStr = ("", "", some .InvalidVoteHeader)) ∧
      (∀ userID vote, stringsSplit raw ';' = [userID, vote] →
        (isIntString userID = false →
          DecodeVoteAndUser encodedStr = ("", "", some .UserIDNotNumber)) ∧
        (isIntString userID = true → vote ≠ "positive" → vote ≠ "negative" →
          DecodeVoteAndUser encodedStr = ("", "", some .InvalidVoteType)) ∧
        (isIntString userID = true → (vote = "positive" ∨ vote = "negative") →
          DecodeVoteAndUser encodedStr = (userID, vote, none))) := by
    intro raw hraw
    refine ⟨?_, ?_⟩
    · intro hlen
      simp [DecodeVoteAndUser, hraw, hlen]
    · intro userID vote hsplit
      refine ⟨?_, ?_, ?_⟩
      · intro hv
        rw [← VerifyID_eq_isIntString] at hv
        simp [DecodeVoteAndUser, hraw, hsplit, hv]
      · intro hv h1 h2
        rw [← VerifyID_eq_isIntString] at hv
        have hvv : verifyVote vote = false := by
          cases hb : verifyVote vote with
          | false => rfl
          | true =>
            rcases (verifyVote_iff vote).1 hb with e | e
            · exact absurd e h1
            · exact absurd e h2
        simp [DecodeVoteAndUser, hraw, hsplit, hv, hvv]
      · intro hv hvote
        rw [← VerifyID_eq_isIntString] at hv
        have hvv : verifyVote vote = true := (verifyVote_iff vote).2 hvote
        simp [DecodeVoteAndUser, hraw, hsplit, hv, hvv]
  have hnone : base64DecodeString encodedStr = none →
      DecodeVoteAndUser encodedStr = ("", "", some .CorruptInput) := by
    intro h
    simp [DecodeVoteAndUser, h]
  refine ⟨hnone, hcases, ?_, by decide, by decide⟩
  constructor
  · intro hok
    cases hraw : base64DecodeString encodedStr with
    | none =>
      rw [hnone hraw] at hok
      exact absurd hok (by simp)
    | some raw =>
      obtain ⟨hlen, hfields⟩ := hcases raw hraw
      by_cases h2 : (stringsSplit raw ';').length = 2
      · obtain ⟨userID, vote, hsplit⟩ : ∃ a b, stringsSplit raw ';' = [a, b] := by
          match hs : stringsSplit raw ';', h2 with
          | [a, b], _ => exact ⟨a, b, rfl⟩
        obtain ⟨hA, hB, hC⟩ := hfields userID vote hsplit
        cases hi : isIntString userID with
        | false =>
          rw [hA hi] at hok
          exact absurd hok (by simp)
        | true =>
          by_cases hvote : vote = "positive" ∨ vote = "negative"
          · exact ⟨raw, userID, vote, rfl, hsplit, hi, hvote, hC hi hvote⟩
          · have h1 : vote ≠ "positive" := fun e => hvote (Or.inl e)
            have h2 : vote ≠ "negative" := fun e => hvote (Or.inr e)
            rw [hB hi h1 h2] at hok
            exact absurd hok (by simp)
      · rw [hlen h2] at hok
        exact absurd hok (by simp)
  · rintro ⟨raw, userID, vote, _, _, _, _, hD⟩
    rw [hD]

end Credibility
